import Mathlib

/-!
Shallow embedding of the `acled_api` Rust client library.

The embedding follows the five source files:
* `lib.rs`    — the `Error` taxonomy, `Configuration`, the `Where` filter
  union with its `as_parameters` encoding, `DEFAULT_LIMIT`, and the
  paginated `get_acled` / `get_deleted` fetch loops built on `Api::query`;
* `acled.rs`  — `AcledQuery`, `AcledEvent` and its `TryFrom<AcledData>`;
* `deleted.rs`— `DeletedQuery`, `DeletedEvent` and its `TryFrom<DeletedData>`;
* `region.rs` — the `Region` enumeration with its numeric codes;
* `response.rs` — the raw data shapes and the untagged `Response` envelope
  with its assertion-checked `into` conversion.

External-crate behaviour that the library calls into (chrono date
parsing/printing, Rust scalar `FromStr`, serde untagged deserialization,
the blocking HTTP transport) is modelled by explicit executable Lean
functions, documented at each site.  Rust panics (`assert!`,
`unreachable!`) are modelled by `Option.none` at the relevant result
types; the unbounded `for page in 1..` loop is modelled with explicit
fuel, `none` standing for "did not return normally".
-/

namespace Acled

/-- Error taxonomy of `lib.rs`: transport errors (`reqwest::Error`, which
also covers JSON-decode failures of the body), API-level errors carrying
the upstream message, and field-scoped parse errors. -/
inductive Error where
  | ReqwestError (message : String)
  | APIError (message : String)
  | ParseError (field : String)
deriving DecidableEq, Repr

/-- Configuration options for the API call: the required `key` and `email`
parameters (`lib.rs`). -/
structure Configuration where
  key : String
  email : String
deriving DecidableEq, Repr

/-- Digit-string to number: `none` on an empty string or any non-digit
character, otherwise the decimal value.  Used to model Rust's integer
`FromStr` and chrono's numeric format fields. -/
def parseNat (cs : List Char) : Option Nat :=
  if cs ≠ [] ∧ cs.all Char.isDigit then
    some (cs.foldl (fun acc c => acc * 10 + (c.toNat - 48)) 0)
  else none

/-- Model of Rust `str::parse::<u64>()`: decimal digits only, value below
2^64.  (The optional leading `+` sign Rust accepts is not modelled; no
claim depends on it.) -/
def parseU64 (s : String) : Option Nat :=
  match parseNat s.data with
  | none => none
  | some n => if n < 2 ^ 64 then some n else none

/-- Gregorian leap-year rule, as used by chrono's calendar. -/
def isLeap (y : Nat) : Bool :=
  y % 4 = 0 && (y % 100 ≠ 0 || y % 400 = 0)

/-- Number of days in a month of a given year. -/
def daysInMonth (y m : Nat) : Nat :=
  if m = 2 then (if isLeap y then 29 else 28)
  else if m = 4 ∨ m = 6 ∨ m = 9 ∨ m = 11 then 30
  else 31

/-- Model of chrono's `NaiveDate`: a valid calendar date.  (chrono years
are signed `i32`; the library only ever parses unsigned digit years, so a
`Nat` year is used.) -/
structure NaiveDate where
  year : Nat
  month : Nat
  day : Nat
deriving DecidableEq, Repr

/-- Split a character list at every dash, keeping empty groups. -/
def splitDash : List Char → List (List Char)
  | [] => [[]]
  | c :: rest =>
    match splitDash rest with
    | [] => [[]]
    | g :: gs => if c = '-' then [] :: g :: gs else (c :: g) :: gs

/-- Model of `chrono::NaiveDate::parse_from_str(s, "%Y-%m-%d")`: three
dash-separated digit groups forming a valid calendar date, the whole
string consumed.  (chrono's signed-year and numeric-field-width edge cases
are not modelled; no claim depends on them.) -/
def NaiveDate.parse_from_str (s : String) : Option NaiveDate :=
  match splitDash s.data with
  | [ys, ms, ds] =>
    match parseNat ys, parseNat ms, parseNat ds with
    | some y, some m, some d =>
      if 1 ≤ m ∧ m ≤ 12 ∧ 1 ≤ d ∧ d ≤ daysInMonth y m then
        some { year := y, month := m, day := d }
      else none
    | _, _, _ => none
  | _ => none

/-- Zero-pad a number to two digits, as chrono's `%m`/`%d` print. -/
def pad2 (n : Nat) : String :=
  if n < 10 then "0" ++ Nat.repr n else Nat.repr n

/-- Zero-pad a number to four digits, as chrono's `%Y` prints. -/
def pad4 (n : Nat) : String :=
  if n < 10 then "000" ++ Nat.repr n
  else if n < 100 then "00" ++ Nat.repr n
  else if n < 1000 then "0" ++ Nat.repr n
  else Nat.repr n

/-- Model of `NaiveDate::to_string()` (chrono `Display`): `YYYY-MM-DD`. -/
def NaiveDate.render (d : NaiveDate) : String :=
  pad4 d.year ++ "-" ++ pad2 d.month ++ "-" ++ pad2 d.day

/-- Drop one leading `+` or `-` sign. -/
def stripSign (cs : List Char) : List Char :=
  match cs with
  | [] => []
  | c :: rest => if c = '+' || c = '-' then rest else c :: rest

/-- Split a character list at the first `e` or `E` (mantissa, exponent). -/
def splitExp : List Char → List Char × Option (List Char)
  | [] => ([], none)
  | c :: rest =>
    if c = 'e' || c = 'E' then ([], some rest)
    else
      match splitExp rest with
      | (m, e) => (c :: m, e)

/-- Mantissa of a decimal float literal: at most one dot, every other
character a digit, at least one digit. -/
def isMantissa (cs : List Char) : Bool :=
  cs.count '.' ≤ 1 && cs.all (fun c => c.isDigit || c = '.') && cs.any Char.isDigit

/-- Exponent part of a float literal: optional sign, nonempty digits. -/
def isExp (cs : List Char) : Bool :=
  let cs' := stripSign cs
  cs' ≠ [] && cs'.all Char.isDigit

/-- Model of the grammar accepted by Rust `str::parse::<f64>()`: optional
sign, then `inf`/`infinity`/`nan` (case-insensitive) or a decimal mantissa
with optional exponent. -/
def isF64String (s : String) : Bool :=
  let cs := stripSign s.data
  let lower := cs.map Char.toLower
  if lower = "inf".data || lower = "infinity".data || lower = "nan".data then true
  else
    match splitExp cs with
    | (m, none) => isMantissa m
    | (m, some e) => isMantissa m && isExp e

/-- Model of `str::parse::<f64>()` at the precision the claims need: the
numeric value is never inspected by the library (the parsed float is only
stored), so a successfully parsed float is represented by its validated
source string. -/
def parseF64 (s : String) : Option String :=
  if isF64String s then some s else none

/-- Numeric codes for each region in ACLED data (`region.rs`). -/
inductive Region where
  | WesternAfrica
  | MiddleAfrica
  | EasternAfrica
  | SouthernAfrica
  | NorthernAfrica
  | SouthAsia
  | SoutheastAsia
  | MiddleEast
  | Europe
  | CaucasusAndCentralAsia
  | CentralAmerica
  | SouthAmerica
  | Caribbean
  | EastAsia
  | NorthAmerica
  | Oceania
  | Antarctica
deriving DecidableEq, Repr

/-- Discriminant value of each `Region` variant (`region.rs`). -/
def Region.code : Region → Nat
  | .WesternAfrica => 1
  | .MiddleAfrica => 2
  | .EasternAfrica => 3
  | .SouthernAfrica => 4
  | .NorthernAfrica => 5
  | .SouthAsia => 7
  | .SoutheastAsia => 9
  | .MiddleEast => 11
  | .Europe => 12
  | .CaucasusAndCentralAsia => 13
  | .CentralAmerica => 14
  | .SouthAmerica => 15
  | .Caribbean => 16
  | .EastAsia => 17
  | .NorthAmerica => 18
  | .Oceania => 19
  | .Antarctica => 20

/-- Model of the strum-derived `FromStr` for `Region`: matches the
serialization string of each variant (the `to_string` attribute where
present, otherwise the variant name). -/
def Region.from_str : String → Option Region
  | "Western Africa" => some .WesternAfrica
  | "Middle Africa" => some .MiddleAfrica
  | "Eastern Africa" => some .EasternAfrica
  | "Southern Africa" => some .SouthernAfrica
  | "Northern Africa" => some .NorthernAfrica
  | "South Asia" => some .SouthAsia
  | "Southeast Asia" => some .SoutheastAsia
  | "Middle East" => some .MiddleEast
  | "Europe" => some .Europe
  | "Caucasus and Central Asia" => some .CaucasusAndCentralAsia
  | "Central America" => some .CentralAmerica
  | "South America" => some .SouthAmerica
  | "Caribbean" => some .Caribbean
  | "East Asia" => some .EastAsia
  | "North America" => some .NorthAmerica
  | "Oceania" => some .Oceania
  | "Antarctica" => some .Antarctica
  | _ => none

/-- The `AsParameter` trait of `lib.rs`: how a scalar renders into a query
parameter value. -/
class AsParameter (T : Type) where
  as_parameter : T → String

export AsParameter (as_parameter)

/-- Rust `String` impl: the string itself. -/
instance : AsParameter String := ⟨fun s => s⟩

/-- Rust `u32`/`u64` impl: decimal text (`to_string`). -/
instance : AsParameter Nat := ⟨Nat.repr⟩

/-- Chrono `NaiveDate` impl: `to_string()`, i.e. `YYYY-MM-DD`. -/
instance : AsParameter NaiveDate := ⟨NaiveDate.render⟩

/-- `Region` impl (`region.rs`): the numeric region code in decimal. -/
instance : AsParameter Region := ⟨fun r => Nat.repr r.code⟩

/-- The `Where` filter union of `lib.rs`: per-field comparison modes. -/
inductive Where (T : Type) where
  | Unspecified
  | Matches (v : T)
  | Equal (v : T)
  | Like (v : T)
  | GreaterThan (v : T)
  | GreaterThanOrEqual (v : T)
  | Between (a b : T)

/-- Default for `Where`: `Unspecified`. -/
instance : Inhabited (Where T) := ⟨.Unspecified⟩

/-- `Where::as_parameters` of `lib.rs`: encode one filter on one field
name into its ordered key/value pairs. -/
def Where.as_parameters [AsParameter T] (w : Where T) (name : String) :
    List (String × String) :=
  match w with
  | .Unspecified => []
  | .Matches v => [(name, as_parameter v)]
  | .Equal v => [(name ++ "_where", "="), (name, as_parameter v)]
  | .Like v => [(name ++ "_where", "LIKE"), (name, as_parameter v)]
  | .GreaterThan v => [(name ++ "_where", ">"), (name, as_parameter v)]
  | .GreaterThanOrEqual v => [(name ++ "_where", ">="), (name, as_parameter v)]
  | .Between a b =>
    [(name ++ "_where", "BETWEEN"),
     (name, as_parameter a ++ "|" ++ as_parameter b)]

/-- Query builder for the `acled` endpoint (`acled.rs`). -/
structure AcledQuery where
  country : Where String := .Unspecified
  id : Where String := .Unspecified
  year : Where Nat := .Unspecified
  region : Where Region := .Unspecified
  date : Where NaiveDate := .Unspecified
  timestamp : Where Nat := .Unspecified

/-- `AcledQuery::as_parameters`: concatenate the per-field encodings in
the fixed source order. -/
def AcledQuery.as_parameters (q : AcledQuery) : List (String × String) :=
  q.country.as_parameters "country"
    ++ q.id.as_parameters "event_id_cnty"
    ++ q.year.as_parameters "year"
    ++ q.region.as_parameters "region"
    ++ q.date.as_parameters "event_date"
    ++ q.timestamp.as_parameters "timestamp"

/-- Query builder for the `deleted` endpoint (`deleted.rs`). -/
structure DeletedQuery where
  id : Where String := .Unspecified
  timestamp : Where Nat := .Unspecified

/-- `DeletedQuery::as_parameters`: concatenate the per-field encodings in
the fixed source order. -/
def DeletedQuery.as_parameters (q : DeletedQuery) : List (String × String) :=
  q.id.as_parameters "event_id_cnty"
    ++ q.timestamp.as_parameters "deleted_timestamp"

/-- Raw wire shape of one `acled` record (`response.rs`): every scalar a
string. -/
structure AcledData where
  event_id_cnty : String
  event_date : String
  timestamp : String
  disorder_type : String
  event_type : String
  sub_event_type : String
  country : String
  region : String
  admin1 : String
  latitude : String
  longitude : String
  notes : String
deriving DecidableEq, Repr

/-- Raw wire shape of one `deleted` record (`response.rs`). -/
structure DeletedData where
  event_id_cnty : String
  deleted_timestamp : String
deriving DecidableEq, Repr

/-- Payload of the failure shape (`response.rs`). -/
structure ErrorData where
  message : String
deriving DecidableEq, Repr

/-- The untagged response envelope of `response.rs`: either the success
shape with a data page, or the failure shape with an error payload. -/
inductive Response (T : Type) where
  | Data (success : Bool) (count : Nat) (data : List T)
  | Error (success : Bool) (count : Nat) (error : ErrorData)

/-- Model of `Iterator::collect::<Result<Vec<_>, _>>()`: convert each
element in order, stopping at the first error. -/
def collect (conv : T → Except Error S) : List T → Except Error (List S)
  | [] => .ok []
  | x :: xs =>
    match conv x with
    | .error e => .error e
    | .ok y =>
      match collect conv xs with
      | .error e => .error e
      | .ok ys => .ok (y :: ys)

/-- `Response::into` of `response.rs`, with the record converter passed
explicitly in place of the `TryFrom` bound.  The two `assert!` /
`assert_eq!` calls are Rust panics: a failed assertion is modelled by
`none`, a value distinct from every normal result `some (.ok _)` /
`some (.error _)`. -/
def Response.into (r : Response T) (conv : T → Except Acled.Error S) :
    Option (Except Acled.Error (List S)) :=
  match r with
  | .Data success count data =>
    if success then
      if count = data.length then some (collect conv data) else none
    else none
  | .Error success count error =>
    if success then none
    else if count = 0 then some (.error (.APIError error.message)) else none

/-- `TryFrom<AcledData> for AcledEvent` (`acled.rs`): the typed event.
Field order matches the Rust struct declaration; `latitude`/`longitude`
hold the validated float source strings (see `parseF64`). -/
structure AcledEvent where
  id : String
  timestamp : Nat
  date : NaiveDate
  event_type : String × String
  disorder_type : String
  region : Region
  country : String
  administrative_region : String
  latitude : String
  longitude : String
  note : String
deriving DecidableEq, Repr

/-- The `try_from` conversion of `acled.rs`: fields are parsed in the
order they appear in the Rust struct literal (`id`, `date`, `timestamp`,
`event_type`, `disorder_type`, `region`, `administrative_region`,
`country`, `latitude`, `longitude`, `note`), the first `?` failure
short-circuiting with a `ParseError` naming that field. -/
def AcledEvent.try_from (data : AcledData) : Except Error AcledEvent :=
  match NaiveDate.parse_from_str data.event_date with
  | none => .error (.ParseError "event_date")
  | some date =>
    match parseU64 data.timestamp with
    | none => .error (.ParseError "timestamp")
    | some timestamp =>
      match Region.from_str data.region with
      | none => .error (.ParseError "region")
      | some region =>
        match parseF64 data.latitude with
        | none => .error (.ParseError "latitude")
        | some latitude =>
          match parseF64 data.longitude with
          | none => .error (.ParseError "longitude")
          | some longitude =>
            .ok
              { id := data.event_id_cnty
                timestamp := timestamp
                date := date
                event_type := (data.event_type, data.sub_event_type)
                disorder_type := data.disorder_type
                region := region
                country := data.country
                administrative_region := data.admin1
                latitude := latitude
                longitude := longitude
                note := data.notes }

/-- Typed event of the `deleted` endpoint (`deleted.rs`). -/
structure DeletedEvent where
  id : String
  timestamp : Nat
deriving DecidableEq, Repr

/-- The `try_from` conversion of `deleted.rs`: only `deleted_timestamp`
can fail. -/
def DeletedEvent.try_from (data : DeletedData) : Except Error DeletedEvent :=
  match parseU64 data.deleted_timestamp with
  | none => .error (.ParseError "deleted_timestamp")
  | some timestamp => .ok { id := data.event_id_cnty, timestamp := timestamp }

/-- The default row limit of the ACLED API (`lib.rs`). -/
def DEFAULT_LIMIT : Nat := 5000

/-- Parameter list built by `Api::query` (`lib.rs`): the query's encoded
parameters, then the credential parameters `key` and `email`, then a
`page` parameter exactly when `page > 1`. -/
def query_params (cfg : Configuration) (parameters : List (String × String))
    (page : Nat) : List (String × String) :=
  parameters ++ [("key", cfg.key), ("email", cfg.email)]
    ++ (if 1 < page then [("page", Nat.repr page)] else [])

/-- The paginated fetch loop shared (textually duplicated) by
`Api::get_acled` and `Api::get_deleted` (`lib.rs`), with the endpoint
specialised by the record converter `conv` and the transport `t`.  `t`
models `Api::query(..)?.json::<Response<_>>()?`: it receives the full
parameter list of one request and returns either a decoded envelope or an
`Error` (transport or body-decode failure).  The unbounded
`for page in 1..` loop carries explicit `fuel`; a first result component
of `none` means the call did not return normally (the loop ran past the
fuel, or an envelope assertion aborted).  The second component is the
trace of parameter lists sent, one per transport request performed, in
order. -/
def fetch_aux (conv : T → Except Error S)
    (t : List (String × String) → Except Error (Response T))
    (cfg : Configuration) (parameters : List (String × String))
    (acc : List S) (page : Nat) (fuel : Nat) :
    Option (Except Error (List S)) × List (List (String × String)) :=
  match fuel with
  | 0 => (none, [])
  | fuel + 1 =>
    let params := query_params cfg parameters page
    match t params with
    | .error e => (some (.error e), [params])
    | .ok response =>
      match response.into conv with
      | none => (none, [params])
      | some (.error e) => (some (.error e), [params])
      | some (.ok events) =>
        let all_events := acc ++ events
        if events.length ≠ DEFAULT_LIMIT then (some (.ok all_events), [params])
        else
          match fetch_aux conv t cfg parameters all_events (page + 1) fuel with
          | (res, trace) => (res, params :: trace)

/-- `Api::get_acled` (`lib.rs`): run the fetch loop for the `acled`
endpoint from page 1 with an empty accumulator. -/
def get_acled (t : List (String × String) → Except Error (Response AcledData))
    (cfg : Configuration) (query : AcledQuery) (fuel : Nat) :
    Option (Except Error (List AcledEvent)) :=
  (fetch_aux AcledEvent.try_from t cfg query.as_parameters [] 1 fuel).1

/-- `Api::get_deleted` (`lib.rs`): run the fetch loop for the `deleted`
endpoint from page 1 with an empty accumulator. -/
def get_deleted (t : List (String × String) → Except Error (Response DeletedData))
    (cfg : Configuration) (query : DeletedQuery) (fuel : Nat) :
    Option (Except Error (List DeletedEvent)) :=
  (fetch_aux DeletedEvent.try_from t cfg query.as_parameters [] 1 fuel).1

/-- Minimal JSON value model for the response bodies the library decodes.
`count` is a `u32`, so numbers are modelled as naturals. -/
inductive Json where
  | null
  | bool (b : Bool)
  | num (n : Nat)
  | str (s : String)
  | arr (elems : List Json)
  | obj (fields : List (String × Json))

/-- Look up a field of a JSON object by name (first occurrence; serde
rejects duplicate fields, an edge no claim depends on). -/
def getField (fields : List (String × Json)) (k : String) : Option Json :=
  match fields with
  | [] => none
  | (k', v) :: rest => if k' = k then some v else getField rest k

/-- JSON boolean accessor. -/
def Json.asBool : Json → Option Bool
  | .bool b => some b
  | _ => none

/-- JSON `u32` accessor: an integer below 2^32. -/
def Json.asU32 : Json → Option Nat
  | .num n => if n < 2 ^ 32 then some n else none
  | _ => none

/-- JSON string accessor. -/
def Json.asStr : Json → Option String
  | .str s => some s
  | _ => none

/-- JSON array accessor. -/
def Json.asArr : Json → Option (List Json)
  | .arr elems => some elems
  | _ => none

/-- Decode every element of a JSON array, failing if any element fails. -/
def decodeArr (decT : Json → Option T) : List Json → Option (List T)
  | [] => some []
  | j :: js =>
    match decT j with
    | none => none
    | some x =>
      match decodeArr decT js with
      | none => none
      | some xs => some (x :: xs)

/-- Decode of `ErrorData` (`response.rs`): an object with a string
`message` field. -/
def decodeErrorData (j : Json) : Option ErrorData :=
  match j with
  | .obj fields =>
    match (getField fields "message").bind Json.asStr with
    | some m => some { message := m }
    | none => none
  | _ => none

/-- Model of serde deserialization of the `Data` variant of `Response`
(`response.rs`): an object with a boolean `success`, a `u32` `count` and
a decodable `data` array; unknown fields are ignored (serde default). -/
def decodeDataVariant (decT : Json → Option T) (j : Json) : Option (Response T) :=
  match j with
  | .obj fields =>
    match (getField fields "success").bind Json.asBool,
          (getField fields "count").bind Json.asU32,
          (getField fields "data").bind Json.asArr with
    | some s, some c, some items =>
      match decodeArr decT items with
      | some data => some (.Data s c data)
      | none => none
    | _, _, _ => none
  | _ => none

/-- Model of serde deserialization of the `Error` variant of `Response`
(`response.rs`): an object with a boolean `success`, a `u32` `count` and
an `error` payload. -/
def decodeErrorVariant (j : Json) : Option (Response T) :=
  match j with
  | .obj fields =>
    match (getField fields "success").bind Json.asBool,
          (getField fields "count").bind Json.asU32,
          (getField fields "error").bind decodeErrorData with
    | some s, some c, some e => some (.Error s c e)
    | _, _, _ => none
  | _ => none

/-- Model of `#[serde(untagged)]` deserialization of `Response`
(`response.rs`): the variants are attempted in declaration order — the
success shape first, then the failure shape — with no discriminant field
consulted. -/
def decodeResponse (decT : Json → Option T) (j : Json) : Option (Response T) :=
  match decodeDataVariant decT j with
  | some r => some r
  | none => decodeErrorVariant j

/-- The failure envelope of the spec's decode example. -/
def badKeyJson : Json :=
  .obj [("success", .bool false), ("count", .num 0),
        ("error", .obj [("message", .str "bad key")])]

/-- Concrete configuration used by witnesses. -/
def cfgW : Configuration := ⟨"k", "e"⟩

/-- A raw `acled` record every field of which parses. -/
def d0 : AcledData :=
  ⟨"EV1", "2024-02-28", "1700000000", "Political violence", "Riots",
   "Mob violence", "Germany", "Europe", "Berlin", "52.5", "13.4", "a note"⟩

/-- The typed event `d0` converts to. -/
def ev0 : AcledEvent :=
  ⟨"EV1", 1700000000, ⟨2024, 2, 28⟩, ("Riots", "Mob violence"),
   "Political violence", .Europe, "Germany", "Berlin", "52.5", "13.4", "a note"⟩

/-- Parameter list of a page-1 request under `cfgW` with no filters. -/
def p1W : List (String × String) := [("key", "k"), ("email", "e")]

/-- Parameter list of a page-2 request under `cfgW` with no filters. -/
def p2W : List (String × String) := [("key", "k"), ("email", "e"), ("page", "2")]

/-- Transport whose page 1 carries 5001 records and whose page 2 is an
API error. -/
def t5001 : List (String × String) → Except Error (Response AcledData) :=
  fun ps =>
    if ps = p1W then .ok (.Data true 5001 (List.replicate 5001 d0))
    else .error (.APIError "page2")

/-- Transport returning exactly 5000 records on page 1 and two records on
page 2. -/
def tTwoPage : List (String × String) → Except Error (Response AcledData) :=
  fun ps =>
    if ps = p2W then .ok (.Data true 2 [d0, d0])
    else .ok (.Data true 5000 (List.replicate 5000 d0))

/-- Transport returning a full page of exactly 5000 records on every
request. -/
def tFull : List (String × String) → Except Error (Response AcledData) :=
  fun _ => .ok (.Data true 5000 (List.replicate 5000 d0))

/-- Transport returning a two-record page on every request. -/
def tShort : List (String × String) → Except Error (Response AcledData) :=
  fun _ => .ok (.Data true 2 [d0, d0])

/-- Transport returning an empty page on every request. -/
def tEmpty : List (String × String) → Except Error (Response AcledData) :=
  fun _ => .ok (.Data true 0 [])

/-- Outcome of requesting and decoding one page: the transport error, the
envelope assertion abort (`none`), or the converted records / API error. -/
def page_outcome (conv : T → Except Acled.Error S)
    (t : List (String × String) → Except Acled.Error (Response T))
    (cfg : Configuration) (ps : List (String × String)) (page : Nat) :
    Option (Except Acled.Error (List S)) :=
  match t (query_params cfg ps page) with
  | .error e => some (.error e)
  | .ok r => r.into conv

/-- A page that decodes to exactly `DEFAULT_LIMIT` records, on which the
fetch loop continues. -/
def full_page (conv : T → Except Acled.Error S)
    (t : List (String × String) → Except Acled.Error (Response T))
    (cfg : Configuration) (ps : List (String × String)) (page : Nat) : Prop :=
  ∃ events, page_outcome conv t cfg ps page = some (.ok events) ∧
    events.length = DEFAULT_LIMIT

/-- A page on which the fetch loop exits with a value: an error of any
kind, or a record list whose length differs from `DEFAULT_LIMIT`. -/
def terminal_page (conv : T → Except Acled.Error S)
    (t : List (String × String) → Except Acled.Error (Response T))
    (cfg : Configuration) (ps : List (String × String)) (page : Nat) : Prop :=
  (∃ e, page_outcome conv t cfg ps page = some (.error e)) ∨
  (∃ events, page_outcome conv t cfg ps page = some (.ok events) ∧
    events.length ≠ DEFAULT_LIMIT)

end Acled

namespace Acled


/-- Helper: the concrete raw record `d0` converts to `ev0`. -/
theorem try_from_d0 : AcledEvent.try_from d0 = .ok ev0 := rfl

/-- Helper: converting a replicated list replicates the converted value. -/
theorem collect_replicate (conv : T → Except Acled.Error S) (a : T) (b : S)
    (h : conv a = .ok b) :
    ∀ n, collect conv (List.replicate n a) = .ok (List.replicate n b)
  | 0 => by simp [collect]
  | n + 1 => by
    simp [List.replicate_succ, collect, h, collect_replicate conv a b h n]

/-- Helper: envelope of a replicated valid page converts to the
replicated typed events. -/
theorem into_replicate (conv : T → Except Acled.Error S) (a : T) (b : S)
    (h : conv a = .ok b) (n : Nat) :
    (Response.Data true n (List.replicate n a)).into conv =
      some (.ok (List.replicate n b)) := by
  simp [Response.into, collect_replicate conv a b h n]

/-- Helper: every key emitted by `Where::as_parameters` is the field name
or the field name suffixed with `_where`. -/
theorem where_param_keys (T : Type) [AsParameter T] (w : Where T)
    (name k v : String) (h : (k, v) ∈ w.as_parameters name) :
    k = name ∨ k = name ++ "_where" := by
  cases w <;> simp [Where.as_parameters] at h <;> tauto

/-- Helper: no `AcledQuery` ever encodes a `page` parameter. -/
theorem acled_no_page (q : AcledQuery) (v : String) :
    ("page", v) ∉ q.as_parameters := by
  intro h
  simp only [AcledQuery.as_parameters, List.mem_append] at h
  rcases h with ((((h | h) | h) | h) | h) | h <;>
    rcases where_param_keys _ _ _ _ _ h with h' | h' <;> simp at h'

/-- Helper: no `DeletedQuery` ever encodes a `page` parameter. -/
theorem deleted_no_page (q : DeletedQuery) (v : String) :
    ("page", v) ∉ q.as_parameters := by
  intro h
  simp only [DeletedQuery.as_parameters, List.mem_append] at h
  rcases h with h | h <;>
    rcases where_param_keys _ _ _ _ _ h with h' | h' <;> simp at h'

/-- C5: for every field name `n` and values `v`, `a`, `b`, the
`Equal`, `Like`, `GreaterThan`, `GreaterThanOrEqual` and `Between`
filters each encode to exactly two key/value pairs, operator pair first
(`n_where` with operator string `=`, `LIKE`, `>`, `>=`, `BETWEEN`
respectively), value pair second (`n` with the rendered value; for
`Between`, the two rendered values joined by `|`). -/
theorem c5_operator_pairs (T : Type) [AsParameter T] (n : String) (v a b : T) :
    (Where.Equal v).as_parameters n = [(n ++ "_where", "="), (n, as_parameter v)] ∧
    (Where.Like v).as_parameters n = [(n ++ "_where", "LIKE"), (n, as_parameter v)] ∧
    (Where.GreaterThan v).as_parameters n =
      [(n ++ "_where", ">"), (n, as_parameter v)] ∧
    (Where.GreaterThanOrEqual v).as_parameters n =
      [(n ++ "_where", ">="), (n, as_parameter v)] ∧
    (Where.Between a b).as_parameters n =
      [(n ++ "_where", "BETWEEN"), (n, as_parameter a ++ "|" ++ as_parameter b)] :=
  ⟨rfl, rfl, rfl, rfl, rfl⟩

/-- C6: the acled query whose only constraints are
`region = Matches(MiddleAfrica)` and `date = GreaterThan(2024-02-28)`
encodes to exactly `[(region, 2), (event_date_where, >),
(event_date, 2024-02-28)]`: fixed field order, numeric region code,
`YYYY-MM-DD` date rendering. -/
theorem c6_region_date_query :
    AcledQuery.as_parameters
      { region := .Matches .MiddleAfrica, date := .GreaterThan ⟨2024, 2, 28⟩ } =
      [("region", "2"), ("event_date_where", ">"), ("event_date", "2024-02-28")] := by
  decide

/-- C8: `Unspecified` encodes to the empty parameter list for every field
name; each query's encoding is the concatenation of its fields' own
encodings under their fixed names, so a field's contribution is a
function of its own filter value and name alone — two queries that agree
on a field contribute identical pairs for it regardless of their other
fields. -/
theorem c8_encoding_pointwise :
    (∀ (T : Type) [AsParameter T] (n : String),
      (Where.Unspecified : Where T).as_parameters n = []) ∧
    (∀ q : AcledQuery, q.as_parameters =
      q.country.as_parameters "country"
        ++ q.id.as_parameters "event_id_cnty"
        ++ q.year.as_parameters "year"
        ++ q.region.as_parameters "region"
        ++ q.date.as_parameters "event_date"
        ++ q.timestamp.as_parameters "timestamp") ∧
    (∀ q : DeletedQuery, q.as_parameters =
      q.id.as_parameters "event_id_cnty"
        ++ q.timestamp.as_parameters "deleted_timestamp") ∧
    (∀ q q' : AcledQuery, q.region = q'.region →
      q.region.as_parameters "region" = q'.region.as_parameters "region") :=
  ⟨fun _ _ _ => rfl, fun _ => rfl, fun _ => rfl, fun _ _ h => by rw [h]⟩

/-- C8 witness: a concrete `Unspecified` field contributes nothing, and
two concrete queries differing in every other field contribute the same
`region` pairs. -/
theorem c8_encoding_pointwise_witness :
    (Where.Unspecified : Where Nat).as_parameters "year" = [] ∧
    ({ region := .Matches .Europe, country := .Matches "Germany" } :
        AcledQuery).region.as_parameters "region" =
      ({ region := .Matches .Europe, timestamp := .Equal 5 } :
        AcledQuery).region.as_parameters "region" :=
  ⟨c8_encoding_pointwise.1 Nat "year",
   c8_encoding_pointwise.2.2.2
     { region := .Matches .Europe, country := .Matches "Germany" }
     { region := .Matches .Europe, timestamp := .Equal 5 } rfl⟩

/-- C2: an envelope whose success shape carries a count different from
the length of its data, or whose failure shape carries a nonzero count,
makes `Response::into` abort hard (`none`, modelling the failed
assertion) — never a record list and never an ordinary `Error` value. -/
theorem c2_integrity_abort (T S : Type) (conv : T → Except Acled.Error S)
    (s : Bool) (c : Nat) (d : List T) (err : ErrorData) :
    (c ≠ d.length → (Response.Data s c d).into conv = none) ∧
    (c ≠ 0 → (Response.Error s c err).into conv = none) := by
  constructor
  · intro h
    cases s <;> simp [Response.into, h]
  · intro h
    cases s <;> simp [Response.into, h]

/-- C2 witness: a success envelope claiming one record over an empty data
array aborts, as does a failure envelope claiming two records. -/
theorem c2_integrity_abort_witness :
    (Response.Data true 1 ([] : List AcledData)).into AcledEvent.try_from = none ∧
    (Response.Error false 2 ⟨"m"⟩ : Response AcledData).into AcledEvent.try_from =
      none :=
  ⟨(c2_integrity_abort AcledData AcledEvent AcledEvent.try_from true 1 [] ⟨"m"⟩).1
      (by decide),
   (c2_integrity_abort AcledData AcledEvent AcledEvent.try_from false 2 [] ⟨"m"⟩).2
      (by decide)⟩

/-- C3: both record converters are fail-fast in the fixed source order of
fallible fields (`event_date`, `timestamp`, `region`, `latitude`,
`longitude` for acled; `deleted_timestamp` for deleted): the reported
`ParseError` names the first field in that order whose raw string fails
to parse, with no condition on any later field, and when every field
parses the typed record is built from the parsed values. -/
theorem c3_converter_fail_fast :
    (∀ d : AcledData,
      (NaiveDate.parse_from_str d.event_date = none →
        AcledEvent.try_from d = .error (.ParseError "event_date")) ∧
      (∀ dt, NaiveDate.parse_from_str d.event_date = some dt →
        parseU64 d.timestamp = none →
        AcledEvent.try_from d = .error (.ParseError "timestamp")) ∧
      (∀ dt ts, NaiveDate.parse_from_str d.event_date = some dt →
        parseU64 d.timestamp = some ts →
        Region.from_str d.region = none →
        AcledEvent.try_from d = .error (.ParseError "region")) ∧
      (∀ dt ts r, NaiveDate.parse_from_str d.event_date = some dt →
        parseU64 d.timestamp = some ts →
        Region.from_str d.region = some r →
        parseF64 d.latitude = none →
        AcledEvent.try_from d = .error (.ParseError "latitude")) ∧
      (∀ dt ts r la, NaiveDate.parse_from_str d.event_date = some dt →
        parseU64 d.timestamp = some ts →
        Region.from_str d.region = some r →
        parseF64 d.latitude = some la →
        parseF64 d.longitude = none →
        AcledEvent.try_from d = .error (.ParseError "longitude")) ∧
      (∀ dt ts r la lo, NaiveDate.parse_from_str d.event_date = some dt →
        parseU64 d.timestamp = some ts →
        Region.from_str d.region = some r →
        parseF64 d.latitude = some la →
        parseF64 d.longitude = some lo →
        AcledEvent.try_from d =
          .ok ⟨d.event_id_cnty, ts, dt, (d.event_type, d.sub_event_type),
               d.disorder_type, r, d.country, d.admin1, la, lo, d.notes⟩)) ∧
    (∀ dd : DeletedData,
      (parseU64 dd.deleted_timestamp = none →
        DeletedEvent.try_from dd = .error (.ParseError "deleted_timestamp")) ∧
      (∀ ts, parseU64 dd.deleted_timestamp = some ts →
        DeletedEvent.try_from dd = .ok ⟨dd.event_id_cnty, ts⟩)) := by
  constructor
  · intro d
    refine ⟨?_, ?_, ?_, ?_, ?_, ?_⟩
    · intro h1
      simp [AcledEvent.try_from, h1]
    · intro dt h1 h2
      simp [AcledEvent.try_from, h1, h2]
    · intro dt ts h1 h2 h3
      simp [AcledEvent.try_from, h1, h2, h3]
    · intro dt ts r h1 h2 h3 h4
      simp [AcledEvent.try_from, h1, h2, h3, h4]
    · intro dt ts r la h1 h2 h3 h4 h5
      simp [AcledEvent.try_from, h1, h2, h3, h4, h5]
    · intro dt ts r la lo h1 h2 h3 h4 h5
      simp [AcledEvent.try_from, h1, h2, h3, h4, h5]
  · intro dd
    constructor
    · intro h1
      simp [DeletedEvent.try_from, h1]
    · intro ts h1
      simp [DeletedEvent.try_from, h1]

/-- C3 witness: a record whose `event_date`, `timestamp`, `region` and
`latitude` are all unparsable reports `event_date`; one whose first
failing field is `timestamp` reports `timestamp`; a deleted record with a
bad `deleted_timestamp` reports `deleted_timestamp`. -/
theorem c3_converter_fail_fast_witness :
    AcledEvent.try_from
        ⟨"id", "garbage", "xx", "d", "t", "st", "c", "nowhere", "a", "zz", "13.4", "n"⟩ =
      .error (.ParseError "event_date") ∧
    AcledEvent.try_from
        ⟨"id", "2024-02-28", "bad", "d", "t", "st", "c", "Europe", "a", "52.5", "13.4", "n"⟩ =
      .error (.ParseError "timestamp") ∧
    DeletedEvent.try_from ⟨"id", "oops"⟩ = .error (.ParseError "deleted_timestamp") :=
  ⟨(c3_converter_fail_fast.1
      ⟨"id", "garbage", "xx", "d", "t", "st", "c", "nowhere", "a", "zz", "13.4", "n"⟩).1
      (by decide),
   (c3_converter_fail_fast.1
      ⟨"id", "2024-02-28", "bad", "d", "t", "st", "c", "Europe", "a", "52.5", "13.4", "n"⟩).2.1
      ⟨2024, 2, 28⟩ (by decide) (by decide),
   (c3_converter_fail_fast.2 ⟨"id", "oops"⟩).1 (by decide)⟩

/-- C7: a failure-shape envelope (flag false, count zero) converts to the
API-level error carrying exactly its embedded message and no records; in
particular the JSON body with success false, count 0 and error message
`bad key` decodes to the failure shape and converts to the API error with
message `bad key`. -/
theorem c7_failure_envelope (T S : Type) (conv : T → Except Acled.Error S)
    (msg : String) (decT : Json → Option T) :
    (Response.Error false 0 ⟨msg⟩ : Response T).into conv =
      some (.error (.APIError msg)) ∧
    decodeResponse decT badKeyJson = some (.Error false 0 ⟨"bad key"⟩) ∧
    (Response.Error false 0 ⟨"bad key"⟩ : Response T).into conv =
      some (.error (.APIError "bad key")) :=
  ⟨rfl, rfl, rfl⟩

/-- C10: the `success` flag never selects the decoded shape — an object
with a decodable `data` array decodes to the success shape and one with
an `error` payload and no `data` decodes to the failure shape, for either
flag value — and `into` then asserts the flag consistent with the shape:
a success shape with flag false, or a failure shape with flag true,
aborts hard (`none`) instead of being decoded as the other shape or
returned as an ordinary error. -/
theorem c10_flag_never_selects_shape :
    (∀ (T : Type) (decT : Json → Option T) (b : Bool),
      decodeResponse decT
          (.obj [("success", .bool b), ("count", .num 0), ("data", .arr [])]) =
        some (.Data b 0 []) ∧
      decodeResponse decT
          (.obj [("success", .bool b), ("count", .num 0),
                 ("error", .obj [("message", .str "m")])]) =
        some (.Error b 0 ⟨"m"⟩)) ∧
    (∀ (T S : Type) (conv : T → Except Acled.Error S) (c : Nat) (d : List T),
      (Response.Data false c d).into conv = none) ∧
    (∀ (T S : Type) (conv : T → Except Acled.Error S) (c : Nat) (err : ErrorData),
      (Response.Error true c err).into conv = none) := by
  refine ⟨fun T decT b => ⟨?_, ?_⟩, fun T S conv c d => rfl, fun T S conv c err => rfl⟩
  · cases b <;> rfl
  · cases b <;> rfl

/-- Helper: one loop iteration on a transport error returns that error
after the single request. -/
theorem fetch_aux_error_step (conv : T → Except Acled.Error S)
    (t : List (String × String) → Except Acled.Error (Response T))
    (cfg : Configuration) (ps : List (String × String)) (acc : List S)
    (page fuel : Nat) (e : Acled.Error)
    (ht : t (query_params cfg ps page) = .error e) :
    fetch_aux conv t cfg ps acc page (fuel + 1) =
      (some (.error e), [query_params cfg ps page]) := by
  simp [fetch_aux, ht]

/-- Helper: one loop iteration on an envelope assertion failure aborts
after the single request. -/
theorem fetch_aux_abort_step (conv : T → Except Acled.Error S)
    (t : List (String × String) → Except Acled.Error (Response T))
    (cfg : Configuration) (ps : List (String × String)) (acc : List S)
    (page fuel : Nat) (r : Response T)
    (ht : t (query_params cfg ps page) = .ok r)
    (hr : r.into conv = none) :
    fetch_aux conv t cfg ps acc page (fuel + 1) =
      (none, [query_params cfg ps page]) := by
  simp [fetch_aux, ht, hr]

/-- Helper: one loop iteration on an API or parse error returns that
error after the single request. -/
theorem fetch_aux_into_error_step (conv : T → Except Acled.Error S)
    (t : List (String × String) → Except Acled.Error (Response T))
    (cfg : Configuration) (ps : List (String × String)) (acc : List S)
    (page fuel : Nat) (r : Response T) (e : Acled.Error)
    (ht : t (query_params cfg ps page) = .ok r)
    (hr : r.into conv = some (.error e)) :
    fetch_aux conv t cfg ps acc page (fuel + 1) =
      (some (.error e), [query_params cfg ps page]) := by
  simp [fetch_aux, ht, hr]

/-- Helper: one loop iteration on a successfully decoded page either
returns the extended accumulator or recurses, by the length test. -/
theorem fetch_aux_ok_step (conv : T → Except Acled.Error S)
    (t : List (String × String) → Except Acled.Error (Response T))
    (cfg : Configuration) (ps : List (String × String)) (acc : List S)
    (page fuel : Nat) (r : Response T) (events : List S)
    (ht : t (query_params cfg ps page) = .ok r)
    (hr : r.into conv = some (.ok events)) :
    fetch_aux conv t cfg ps acc page (fuel + 1) =
      if events.length ≠ DEFAULT_LIMIT then
        (some (.ok (acc ++ events)), [query_params cfg ps page])
      else
        ((fetch_aux conv t cfg ps (acc ++ events) (page + 1) fuel).1,
          query_params cfg ps page ::
            (fetch_aux conv t cfg ps (acc ++ events) (page + 1) fuel).2) := by
  simp [fetch_aux, ht, hr]

/-- Helper: if the fetch loop returned a value, some page reached through
a prefix of full pages was terminal. -/
theorem fetch_exit_elim (conv : T → Except Acled.Error S)
    (t : List (String × String) → Except Acled.Error (Response T))
    (cfg : Configuration) (ps : List (String × String)) :
    ∀ fuel acc page, (fetch_aux conv t cfg ps acc page fuel).1 ≠ none →
      ∃ p, page ≤ p ∧ (∀ q, page ≤ q → q < p → full_page conv t cfg ps q) ∧
        terminal_page conv t cfg ps p := by
  intro fuel
  induction fuel with
  | zero => intro acc page h; simp [fetch_aux] at h
  | succ n ih =>
    intro acc page h
    cases ht : t (query_params cfg ps page) with
    | error e =>
      exact ⟨page, Nat.le_refl _,
        fun q hq hq' => absurd (Nat.lt_of_le_of_lt hq hq') (Nat.lt_irrefl _),
        Or.inl ⟨e, by simp [page_outcome, ht]⟩⟩
    | ok r =>
      cases hr : r.into conv with
      | none =>
        rw [fetch_aux_abort_step conv t cfg ps acc page n r ht hr] at h
        simp at h
      | some res =>
        cases res with
        | error e =>
          exact ⟨page, Nat.le_refl _,
            fun q hq hq' => absurd (Nat.lt_of_le_of_lt hq hq') (Nat.lt_irrefl _),
            Or.inl ⟨e, by simp [page_outcome, ht, hr]⟩⟩
        | ok events =>
          rw [fetch_aux_ok_step conv t cfg ps acc page n r events ht hr] at h
          by_cases hlen : events.length ≠ DEFAULT_LIMIT
          · exact ⟨page, Nat.le_refl _,
              fun q hq hq' => absurd (Nat.lt_of_le_of_lt hq hq') (Nat.lt_irrefl _),
              Or.inr ⟨events, by simp [page_outcome, ht, hr], hlen⟩⟩
          · push_neg at hlen
            rw [if_neg (by simp [hlen])] at h
            obtain ⟨p, hpp, hfullp, htermp⟩ := ih (acc ++ events) (page + 1) h
            refine ⟨p, by omega, ?_, htermp⟩
            intro q hq hq'
            rcases Nat.eq_or_lt_of_le hq with rfl | hq2
            · exact ⟨events, by simp [page_outcome, ht, hr], hlen⟩
            · exact hfullp q hq2 hq'

/-- Helper: a terminal page reached through a prefix of full pages makes
the fetch loop return a value within `n + 1` fuel. -/
theorem fetch_reaches_terminal (conv : T → Except Acled.Error S)
    (t : List (String × String) → Except Acled.Error (Response T))
    (cfg : Configuration) (ps : List (String × String)) :
    ∀ n page acc,
      (∀ q, page ≤ q → q < page + n → full_page conv t cfg ps q) →
      terminal_page conv t cfg ps (page + n) →
      (fetch_aux conv t cfg ps acc page (n + 1)).1 ≠ none := by
  intro n
  induction n with
  | zero =>
    intro page acc hfull hterm
    cases ht : t (query_params cfg ps page) with
    | error e =>
      rw [fetch_aux_error_step conv t cfg ps acc page 0 e ht]
      simp
    | ok r =>
      rcases hterm with ⟨e, he⟩ | ⟨events, he, hne⟩
      · have hr : r.into conv = some (.error e) := by
          simpa [page_outcome, ht] using he
        rw [fetch_aux_into_error_step conv t cfg ps acc page 0 r e ht hr]
        simp
      · have hr : r.into conv = some (.ok events) := by
          simpa [page_outcome, ht] using he
        rw [fetch_aux_ok_step conv t cfg ps acc page 0 r events ht hr, if_pos hne]
        simp
  | succ n ih =>
    intro page acc hfull hterm
    have hfp : full_page conv t cfg ps page := hfull page (Nat.le_refl _) (by omega)
    rcases hfp with ⟨events, he, hlen⟩
    cases ht : t (query_params cfg ps page) with
    | error e =>
      rw [fetch_aux_error_step conv t cfg ps acc page (n + 1) e ht]
      simp
    | ok r =>
      have hr : r.into conv = some (.ok events) := by
        simpa [page_outcome, ht] using he
      rw [fetch_aux_ok_step conv t cfg ps acc page (n + 1) r events ht hr]
      rw [if_neg (by simp [hlen])]
      exact ih (page + 1) (acc ++ events)
        (fun q hq hq' => hfull q (by omega) (by omega))
        (by rw [show page + 1 + n = page + (n + 1) by omega]; exact hterm)

/-- C1 (amended): after a page decodes to `events`, the fetch loop stops
and returns the accumulated records exactly when `events.length` differs
from the limit 5000 — an empty page, any short page, and any over-long
page alike — and continues with the next page number exactly when the
page has exactly 5000 records. -/
theorem c1_page_stop_rule (T S : Type) (conv : T → Except Acled.Error S)
    (t : List (String × String) → Except Acled.Error (Response T))
    (cfg : Configuration) (ps : List (String × String)) (acc : List S)
    (page fuel : Nat) (r : Response T) (events : List S)
    (ht : t (query_params cfg ps page) = .ok r)
    (hr : r.into conv = some (.ok events)) :
    (events.length ≠ DEFAULT_LIMIT →
      fetch_aux conv t cfg ps acc page (fuel + 1) =
        (some (.ok (acc ++ events)), [query_params cfg ps page])) ∧
    (events.length = DEFAULT_LIMIT →
      fetch_aux conv t cfg ps acc page (fuel + 1) =
        ((fetch_aux conv t cfg ps (acc ++ events) (page + 1) fuel).1,
          query_params cfg ps page ::
            (fetch_aux conv t cfg ps (acc ++ events) (page + 1) fuel).2)) := by
  constructor
  · intro h
    rw [fetch_aux_ok_step conv t cfg ps acc page fuel r events ht hr, if_pos h]
  · intro h
    rw [fetch_aux_ok_step conv t cfg ps acc page fuel r events ht hr,
      if_neg (by simp [h])]

/-- C1 witness: a two-record page and an empty page each terminate the
fetch after a single request, returning exactly that page. -/
theorem c1_page_stop_rule_witness :
    fetch_aux AcledEvent.try_from tShort cfgW [] [] 1 1 =
      (some (.ok [ev0, ev0]), [p1W]) ∧
    fetch_aux AcledEvent.try_from tEmpty cfgW [] [] 1 1 =
      (some (.ok []), [p1W]) :=
  ⟨(c1_page_stop_rule AcledData AcledEvent AcledEvent.try_from tShort cfgW [] [] 1 0
      (.Data true 2 [d0, d0]) [ev0, ev0] rfl rfl).1 (by decide),
   (c1_page_stop_rule AcledData AcledEvent AcledEvent.try_from tEmpty cfgW [] [] 1 0
      (.Data true 0 []) [] rfl rfl).1 (by decide)⟩

/-- C1 counterexample: a page of 5001 records — at least the page-size
limit 5000 — does not make the loop request the next page: the fetch
returns after the single page-1 request with those 5001 records, whereas
continuing (as the claim states for pages of at least 5000 records) would
have surfaced the API error this transport serves on page 2. -/
theorem c1_counterexample :
    DEFAULT_LIMIT ≤ 5001 ∧
    fetch_aux AcledEvent.try_from t5001 cfgW [] [] 1 9 =
      (some (.ok (List.replicate 5001 ev0)), [p1W]) ∧
    (fetch_aux AcledEvent.try_from t5001 cfgW [] (List.replicate 5001 ev0) 2 8).1 =
      some (.error (.APIError "page2")) := by
  have h1 : query_params cfgW [] 1 = p1W := by decide
  have h2 : query_params cfgW [] 2 = p2W := by decide
  refine ⟨by decide, ?_, ?_⟩
  · show fetch_aux AcledEvent.try_from t5001 cfgW [] [] 1 (8 + 1) = _
    have ht : t5001 (query_params cfgW [] 1) =
        .ok (.Data true 5001 (List.replicate 5001 d0)) := by
      rw [h1]; unfold t5001; rw [if_pos rfl]
    have hr := into_replicate AcledEvent.try_from d0 ev0 try_from_d0 5001
    have hlen : (List.replicate 5001 ev0).length ≠ DEFAULT_LIMIT := by
      rw [List.length_replicate]; decide
    rw [fetch_aux_ok_step AcledEvent.try_from t5001 cfgW [] [] 1 8
      (.Data true 5001 (List.replicate 5001 d0)) (List.replicate 5001 ev0) ht hr,
      if_pos hlen, h1, List.nil_append]
  · show (fetch_aux AcledEvent.try_from t5001 cfgW []
      (List.replicate 5001 ev0) 2 (7 + 1)).1 = _
    have ht : t5001 (query_params cfgW [] 2) = .error (.APIError "page2") := by
      rw [h2]; unfold t5001; rw [if_neg (by decide)]
    rw [fetch_aux_error_step AcledEvent.try_from t5001 cfgW []
      (List.replicate 5001 ev0) 2 7 (.APIError "page2") ht]

/-- C4: every request's parameter list contains the query's encoded
parameters and the credential parameters `key` and `email`, and contains
a `page` parameter (with the decimal page number) exactly when the page
number exceeds 1 (no query field ever encodes a `page` key); and a
transport serving exactly 5000 records on page 1 and fewer on page 2
makes the fetch perform exactly those two requests, the second including
`page=2`, returning the two pages' records concatenated in order. -/
theorem c4_request_params_and_continuation :
    (∀ (cfg : Configuration) (ps : List (String × String)) (page : Nat),
      (∀ kv, kv ∈ ps → kv ∈ query_params cfg ps page) ∧
      ("key", cfg.key) ∈ query_params cfg ps page ∧
      ("email", cfg.email) ∈ query_params cfg ps page ∧
      (1 < page → ("page", Nat.repr page) ∈ query_params cfg ps page) ∧
      ((∀ v, ("page", v) ∉ ps) →
        ((∃ v, ("page", v) ∈ query_params cfg ps page) ↔ 1 < page))) ∧
    (∀ (q : AcledQuery) (v : String), ("page", v) ∉ q.as_parameters) ∧
    (∀ (q : DeletedQuery) (v : String), ("page", v) ∉ q.as_parameters) ∧
    (∀ (T S : Type) (conv : T → Except Acled.Error S)
      (t : List (String × String) → Except Acled.Error (Response T))
      (cfg : Configuration) (ps : List (String × String)) (fuel : Nat)
      (r1 r2 : Response T) (e1 e2 : List S),
      t (query_params cfg ps 1) = .ok r1 →
      r1.into conv = some (.ok e1) → e1.length = DEFAULT_LIMIT →
      t (query_params cfg ps 2) = .ok r2 →
      r2.into conv = some (.ok e2) → e2.length < DEFAULT_LIMIT →
      fetch_aux conv t cfg ps [] 1 (fuel + 2) =
        (some (.ok (e1 ++ e2)), [query_params cfg ps 1, query_params cfg ps 2]) ∧
      ("page", "2") ∈ query_params cfg ps 2) := by
  refine ⟨fun cfg ps page => ⟨?_, ?_, ?_, ?_, ?_⟩, acled_no_page, deleted_no_page, ?_⟩
  · intro kv h
    simp [query_params, h]
  · simp [query_params]
  · simp [query_params]
  · intro h
    simp [query_params, h]
  · intro hps
    constructor
    · rintro ⟨v, hv⟩
      simp only [query_params, List.mem_append] at hv
      rcases hv with (hv | hv) | hv
      · exact absurd hv (hps v)
      · simp at hv
      · by_cases hp : 1 < page
        · exact hp
        · rw [if_neg hp] at hv
          simp at hv
    · intro hp
      exact ⟨Nat.repr page, by simp [query_params, hp]⟩
  · intro T S conv t cfg ps fuel r1 r2 e1 e2 ht1 hr1 hl1 ht2 hr2 hl2
    have hv2 : Nat.repr 2 = "2" := by decide
    have hne2 : e2.length ≠ DEFAULT_LIMIT := Nat.ne_of_lt hl2
    have step2 : fetch_aux conv t cfg ps e1 2 (fuel + 1) =
        (some (.ok (e1 ++ e2)), [query_params cfg ps 2]) := by
      rw [fetch_aux_ok_step conv t cfg ps e1 2 fuel r2 e2 ht2 hr2, if_pos hne2]
    constructor
    · show fetch_aux conv t cfg ps [] 1 ((fuel + 1) + 1) = _
      rw [fetch_aux_ok_step conv t cfg ps [] 1 (fuel + 1) r1 e1 ht1 hr1,
        if_neg (by simp [hl1])]
      simp only [List.nil_append]
      rw [show (1 : Nat) + 1 = 2 from rfl, step2]
    · simp [query_params, hv2]

/-- C4 witness: under the concrete two-page transport the fetch makes
exactly the page-1 and page-2 requests and returns the 5002 records in
order, the second request carrying `page=2`. -/
theorem c4_request_params_and_continuation_witness :
    fetch_aux AcledEvent.try_from tTwoPage cfgW [] [] 1 2 =
      (some (.ok (List.replicate 5000 ev0 ++ [ev0, ev0])), [p1W, p2W]) ∧
    ("page", "2") ∈ p2W := by
  have h1 : query_params cfgW [] 1 = p1W := by decide
  have h2 : query_params cfgW [] 2 = p2W := by decide
  have ht1 : tTwoPage (query_params cfgW [] 1) =
      .ok (.Data true 5000 (List.replicate 5000 d0)) := by
    rw [h1]; unfold tTwoPage; rw [if_neg (by decide)]
  have ht2 : tTwoPage (query_params cfgW [] 2) = .ok (.Data true 2 [d0, d0]) := by
    rw [h2]; unfold tTwoPage; rw [if_pos rfl]
  have h := c4_request_params_and_continuation.2.2.2 AcledData AcledEvent
    AcledEvent.try_from tTwoPage cfgW [] 0
    (.Data true 5000 (List.replicate 5000 d0)) (.Data true 2 [d0, d0])
    (List.replicate 5000 ev0) [ev0, ev0]
    ht1 (into_replicate AcledEvent.try_from d0 ev0 try_from_d0 5000)
    (by rw [List.length_replicate]; rfl) ht2 rfl (by decide)
  rw [h1, h2] at h
  exact h

/-- C9: if every page of the transport decodes to exactly 5000 records,
the fetch loop never returns a value (for any fuel); and the fetch
returns a value exactly when some page — reached through a prefix of full
5000-record pages — yields an error or a record count different from
5000, the loop having no other exit. -/
theorem c9_full_pages_never_return (T S : Type) (conv : T → Except Acled.Error S)
    (t : List (String × String) → Except Acled.Error (Response T))
    (cfg : Configuration) (ps : List (String × String)) :
    ((∀ p, 1 ≤ p → full_page conv t cfg ps p) →
      ∀ fuel acc page, 1 ≤ page → (fetch_aux conv t cfg ps acc page fuel).1 = none) ∧
    ((∃ fuel, (fetch_aux conv t cfg ps [] 1 fuel).1 ≠ none) ↔
      ∃ p, 1 ≤ p ∧ (∀ q, 1 ≤ q → q < p → full_page conv t cfg ps q) ∧
        terminal_page conv t cfg ps p) := by
  constructor
  · intro hall fuel
    induction fuel with
    | zero => intro acc page hp; simp [fetch_aux]
    | succ n ih =>
      intro acc page hp
      rcases hall page hp with ⟨events, he, hlen⟩
      cases ht : t (query_params cfg ps page) with
      | error e => simp [page_outcome, ht] at he
      | ok r =>
        have hr : r.into conv = some (.ok events) := by
          simpa [page_outcome, ht] using he
        rw [fetch_aux_ok_step conv t cfg ps acc page n r events ht hr]
        rw [if_neg (by simp [hlen])]
        exact ih (acc ++ events) (page + 1) (by omega)
  · constructor
    · rintro ⟨fuel, h⟩
      exact fetch_exit_elim conv t cfg ps fuel [] 1 h
    · rintro ⟨p, hp, hfull, hterm⟩
      refine ⟨(p - 1) + 1, ?_⟩
      have h := fetch_reaches_terminal conv t cfg ps (p - 1) 1 []
        (fun q hq hq' => hfull q hq (by omega))
        (by rw [show 1 + (p - 1) = p by omega]; exact hterm)
      exact h

/-- C9 witness: with the transport that serves a full 5000-record page on
every request, the fetch has not returned after three pages of fuel. -/
theorem c9_full_pages_never_return_witness :
    (fetch_aux AcledEvent.try_from tFull cfgW [] [] 1 3).1 = none := by
  refine (c9_full_pages_never_return AcledData AcledEvent AcledEvent.try_from
    tFull cfgW []).1 ?_ 3 [] 1 (by decide)
  intro p hp
  exact ⟨List.replicate 5000 ev0,
    into_replicate AcledEvent.try_from d0 ev0 try_from_d0 5000,
    by rw [List.length_replicate]; rfl⟩

end Acled
